import Mathlib

/-
Shallow embedding of the jackolope DGT-board protocol decoder
(src/protocol.rs, src/game.rs, src/main.rs).

Bytes are modelled as Nat values; every byte delivered by the serial
transport satisfies b < 256, which appears as a hypothesis where a
theorem needs it.  u8 arithmetic that could wrap is written with an
explicit % 256.  Rust functions that can panic are modelled with an
explicit divergence outcome (Option, or a dedicated constructor),
since a Rust panic aborts rather than returning.
-/

set_option maxRecDepth 8192

namespace Jackolope

/-- Commands that can be sent to a DGT board (enum Command in protocol.rs). -/
inductive Command
  | RequestClock
  | RequestBoard
  | EnableUpdate
  | RequestUpdate
  | RequestSerialNumber
  | RequestBusAddress
  | RequestTrademark
  | RequestVersion
  | RequestNiceUpdate
  | RequestEEMoves
  | Reset
deriving DecidableEq, Fintype

/-- The wire discriminant of each Command (the `= 0x41` etc. values of the Rust enum). -/
def Command.code : Command → Nat
  | .RequestClock => 0x41
  | .RequestBoard => 0x42
  | .EnableUpdate => 0x43
  | .RequestUpdate => 0x44
  | .RequestSerialNumber => 0x45
  | .RequestBusAddress => 0x46
  | .RequestTrademark => 0x47
  | .RequestVersion => 0x4d
  | .RequestNiceUpdate => 0x4b
  | .RequestEEMoves => 0x49
  | .Reset => 0x40

/-- Command::as_byte: `[self as u8]`, a one-element byte array. -/
def Command.as_byte (c : Command) : List Nat := [c.code]

/-- Command::try_from_byte. -/
def Command.try_from_byte (byte : Nat) : Option Command :=
  match byte with
  | 0x41 => some .RequestClock
  | 0x42 => some .RequestBoard
  | 0x43 => some .EnableUpdate
  | 0x44 => some .RequestUpdate
  | 0x45 => some .RequestSerialNumber
  | 0x46 => some .RequestBusAddress
  | 0x47 => some .RequestTrademark
  | 0x4d => some .RequestVersion
  | 0x4b => some .RequestNiceUpdate
  | 0x49 => some .RequestEEMoves
  | 0x40 => some .Reset
  | _ => none

/-- struct Remaining (per-side clock time). -/
structure Remaining where
  hours : Nat
  minutes : Nat
  seconds : Nat
deriving DecidableEq

/-- Remaining::from_bcd.  The Rust source takes a `[u8; 3]`; the three bytes are
read here with getD (the caller always passes a list of length 3).
`b >> 4` is `b >>> 4`, `b & 0x0f` is `b &&& 0x0f`, and the u8 expression
`10 * hi + lo` wraps mod 256, hence the explicit `% 256`. -/
def Remaining.from_bcd (bcd : List Nat) : Remaining :=
  let hours := bcd.getD 0 0
  let minutes := bcd.getD 1 0
  let seconds := bcd.getD 2 0
  { hours := (10 * (hours >>> 4) + (hours &&& 0x0f)) % 256
    minutes := (10 * (minutes >>> 4) + (minutes &&& 0x0f)) % 256
    seconds := (10 * (seconds >>> 4) + (seconds &&& 0x0f)) % 256 }

/-- enum ClockStatus (the source spells the first variant NoCock; the spec
calls these NoClock / WhiteToMove / BlackToMove). -/
inductive ClockStatus
  | NoCock
  | WhitesTurn
  | BlacksTurn
deriving DecidableEq

/-- ClockStatus::from_byte. -/
def ClockStatus.from_byte (byte : Nat) : ClockStatus :=
  if byte &&& 0x01 ≠ 0 then ClockStatus.NoCock
  else if byte &&& 0x08 ≠ 0 then ClockStatus.BlacksTurn
  else ClockStatus.WhitesTurn

/-- Raw piece representation as sent by the DGT board (enum RawPiece). -/
inductive RawPiece
  | Empty
  | WhitePawn
  | WhiteRook
  | WhiteKnight
  | WhiteBishop
  | WhiteKing
  | WhiteQueen
  | BlackPawn
  | BlackRook
  | BlackKnight
  | BlackBishop
  | BlackKing
  | BlackQueen
deriving DecidableEq, Fintype

/-- The wire discriminant of each RawPiece (the `= 0x00` … `= 0x0c` values). -/
def RawPiece.code : RawPiece → Nat
  | .Empty => 0x00
  | .WhitePawn => 0x01
  | .WhiteRook => 0x02
  | .WhiteKnight => 0x03
  | .WhiteBishop => 0x04
  | .WhiteKing => 0x05
  | .WhiteQueen => 0x06
  | .BlackPawn => 0x07
  | .BlackRook => 0x08
  | .BlackKnight => 0x09
  | .BlackBishop => 0x0a
  | .BlackKing => 0x0b
  | .BlackQueen => 0x0c

/-- RawPiece::try_from_byte. -/
def RawPiece.try_from_byte (byte : Nat) : Option RawPiece :=
  match byte with
  | 0x00 => some .Empty
  | 0x01 => some .WhitePawn
  | 0x02 => some .WhiteRook
  | 0x03 => some .WhiteKnight
  | 0x04 => some .WhiteBishop
  | 0x05 => some .WhiteKing
  | 0x06 => some .WhiteQueen
  | 0x07 => some .BlackPawn
  | 0x08 => some .BlackRook
  | 0x09 => some .BlackKnight
  | 0x0a => some .BlackBishop
  | 0x0b => some .BlackKing
  | 0x0c => some .BlackQueen
  | _ => none

/-- RawPiece::to_char (FEN-style rendering). -/
def RawPiece.to_char : RawPiece → Char
  | .Empty => ' '
  | .WhitePawn => 'P'
  | .WhiteRook => 'R'
  | .WhiteKnight => 'N'
  | .WhiteBishop => 'B'
  | .WhiteKing => 'K'
  | .WhiteQueen => 'Q'
  | .BlackPawn => 'p'
  | .BlackRook => 'r'
  | .BlackKnight => 'n'
  | .BlackBishop => 'b'
  | .BlackKing => 'k'
  | .BlackQueen => 'q'

/-- struct ChessBoard: a `[RawPiece; 64]`; modelled as a list whose length is 64
in every reachable state (ChessBoard::new only builds 64-element boards). -/
structure ChessBoard where
  board : List RawPiece
deriving DecidableEq

/-- ChessBoard::new: converts 64 raw bytes, failing on the first byte that is
not a valid piece (the source loops pushing pieces and returns None on the
first failure, which is exactly mapM over Option). -/
def ChessBoard.new (raw : List Nat) : Option ChessBoard :=
  (raw.mapM RawPiece.try_from_byte).map (fun l => ⟨l⟩)

/-- struct ChessMove: a single-square update `(grid, piece)`; grid is a u8. -/
structure ChessMove where
  grid : Nat
  piece : RawPiece
deriving DecidableEq

/-- enum MessageType. -/
inductive MessageType
  | BoardDump
  | BWTime
  | FieldUpdate
  | EEMoves
  | BusAddress
  | SerialNumber
  | Trademark
  | Version
deriving DecidableEq, Fintype

/-- MessageType::try_from_byte. -/
def MessageType.try_from_byte (byte : Nat) : Option MessageType :=
  match byte with
  | 0x06 => some .BoardDump
  | 0x0d => some .BWTime
  | 0x0e => some .FieldUpdate
  | 0x0f => some .EEMoves
  | 0x10 => some .BusAddress
  | 0x11 => some .SerialNumber
  | 0x12 => some .Trademark
  | 0x13 => some .Version
  | _ => none

/-- enum Response.  The Rust SerialNumber/BusAddress/Trademark variants hold a
String produced by String::from_utf8_lossy; no claim inspects that text, so the
variants carry the raw payload bytes here (the lossy UTF-8 replacement is pure
formatting).  Version holds the rendered "major.minor" text as in the source. -/
inductive Response
  | BoardDump (board : ChessBoard)
  | BWTime (white_time : Remaining) (black_time : Remaining) (status : ClockStatus)
  | FieldUpdate (m : ChessMove)
  | SerialNumber (raw : List Nat)
  | BusAddress (raw : List Nat)
  | Trademark (raw : List Nat)
  | Version (s : String)
deriving DecidableEq

/-- enum ParseError. -/
inductive ParseError
  | InvalidLength (message_type : MessageType) (expected : Nat) (actual : Nat)
  | InvalidPiece
  | InvalidMove
deriving DecidableEq

/-- ParseError::invalid_length. -/
def ParseError.invalid_length (message_type : MessageType) (expected actual : Nat) : ParseError :=
  ParseError.InvalidLength message_type expected actual

/-- Outcome of Response::try_from_raw.  The Rust signature is
`Result<Response, ParseError>`, but the EEMoves arm executes `todo!`, which
panics instead of returning; constructor `panics` models that divergence. -/
inductive DecodeResult
  | ok (r : Response)
  | err (e : ParseError)
  | panics (msg : String)
deriving DecidableEq

/-- True exactly on the divergence outcome. -/
def DecodeResult.diverges : DecodeResult → Bool
  | .panics _ => true
  | _ => false

/-- Response::try_from_raw.  Each arm follows the source: fixed-length checks
first, then per-type decoding.  The `data[..3]` / `data[3..6]` slices are
`take 3` and `(drop 3).take 3`; `data[6]` is `getD 6 0` (in the source the
index is in bounds because the length was checked). -/
def Response.try_from_raw (message_type : MessageType) (data : List Nat) : DecodeResult :=
  match message_type with
  | .BoardDump =>
    if data.length = 64 then
      match ChessBoard.new data with
      | some board => .ok (.BoardDump board)
      | none => .err ParseError.InvalidPiece
    else .err (ParseError.invalid_length .BoardDump 64 data.length)
  | .BWTime =>
    if data.length = 7 then
      let white_time := Remaining.from_bcd (data.take 3)
      let black_time := Remaining.from_bcd ((data.drop 3).take 3)
      let status := ClockStatus.from_byte (data.getD 6 0)
      .ok (.BWTime white_time black_time status)
    else .err (ParseError.invalid_length .BWTime 7 data.length)
  | .FieldUpdate =>
    if data.length = 2 then
      let grid := data.getD 0 0
      if grid < 64 then
        match RawPiece.try_from_byte (data.getD 1 0) with
        | some piece => .ok (.FieldUpdate ⟨grid, piece⟩)
        | none => .err ParseError.InvalidPiece
      else .err ParseError.InvalidMove
    else .err (ParseError.invalid_length .FieldUpdate 2 data.length)
  | .SerialNumber => .ok (.SerialNumber data)
  | .EEMoves => .panics "Implement EEMoves parsing"
  | .BusAddress => .ok (.BusAddress data)
  | .Trademark => .ok (.Trademark data)
  | .Version =>
    if data.length = 2 then
      .ok (.Version (toString (data.getD 0 0) ++ "." ++ toString (data.getD 1 0)))
    else .err (ParseError.invalid_length .Version 2 data.length)

/-- enum StartPosition (game.rs). -/
inductive StartPosition
  | None
  | Normal
  | Mirror
deriving DecidableEq

/-- struct GameBoard (game.rs). -/
structure GameBoard where
  board : ChessBoard
  start : StartPosition
deriving DecidableEq

/-- GameBoard::is_starting_position.  The Rust slices `board[16..48]`,
`board[8..16]`, `board[48..56]`, `board[0..8]`, `board[56..64]` are written
`(drop i).take n`; iterator any/all and slice equality keep their Bool form. -/
def GameBoard.is_starting_position (g : GameBoard) : StartPosition :=
  let b := g.board.board
  if ((b.drop 16).take 32).any (fun p => p != RawPiece.Empty) then
    StartPosition.None
  else if ((b.drop 8).take 8).all (fun p => p == RawPiece.WhitePawn)
      && ((b.drop 48).take 8).all (fun p => p == RawPiece.BlackPawn)
      && (b.take 8
          == [RawPiece.WhiteRook, RawPiece.WhiteKnight, RawPiece.WhiteBishop,
              RawPiece.WhiteKing, RawPiece.WhiteQueen, RawPiece.WhiteBishop,
              RawPiece.WhiteKnight, RawPiece.WhiteRook])
      && ((b.drop 56).take 8
          == [RawPiece.BlackRook, RawPiece.BlackKnight, RawPiece.BlackBishop,
              RawPiece.BlackKing, RawPiece.BlackQueen, RawPiece.BlackBishop,
              RawPiece.BlackKnight, RawPiece.BlackRook]) then
    StartPosition.Normal
  else if ((b.drop 8).take 8).all (fun p => p == RawPiece.BlackPawn)
      && ((b.drop 48).take 8).all (fun p => p == RawPiece.WhitePawn)
      && (b.take 8
          == [RawPiece.BlackRook, RawPiece.BlackKnight, RawPiece.BlackBishop,
              RawPiece.BlackQueen, RawPiece.BlackKing, RawPiece.BlackBishop,
              RawPiece.BlackKnight, RawPiece.BlackRook])
      && ((b.drop 56).take 8
          == [RawPiece.WhiteRook, RawPiece.WhiteKnight, RawPiece.WhiteBishop,
              RawPiece.WhiteQueen, RawPiece.WhiteKing, RawPiece.WhiteBishop,
              RawPiece.WhiteKnight, RawPiece.WhiteRook]) then
    StartPosition.Mirror
  else
    StartPosition.None

/-- GameBoard::new: builds the tracker and computes the initial classification. -/
def GameBoard.new (board : ChessBoard) : GameBoard :=
  let game : GameBoard := { board := board, start := StartPosition.None }
  { game with start := game.is_starting_position }

/-- GameBoard::apply_move.  The Rust body is
`self.board.board[mv.grid as usize] = mv.piece;` followed by a debug print of
the board (I/O, not modelled).  Indexing a `[RawPiece; 64]` with an
out-of-bounds index panics, so the result is `none` when `mv.grid` is not
below the board length; an in-range index writes exactly that entry. -/
def GameBoard.apply_move (g : GameBoard) (mv : ChessMove) : Option GameBoard :=
  if mv.grid < g.board.board.length then
    some { g with board := ⟨g.board.board.set mv.grid mv.piece⟩ }
  else
    none

/-- Outcome of get_response (main.rs) on a finite byte stream.  `ioError`
models a failing read_exact (here: the stream is exhausted); `lengthError` is
the "Invalid response length" error; `unknownType` the "Invalid response type"
error; `parseError` the logged parse failure; `panics` a divergence inside
Response::try_from_raw. -/
inductive ReadOutcome
  | ok (r : Response)
  | ioError
  | lengthError
  | parseError (e : ParseError)
  | unknownType (code : Nat)
  | panics (msg : String)
deriving DecidableEq

/-- Shared tail of the frame loop: header complete (type byte already masked,
two length bytes accepted), compute the length, read the payload and dispatch.
Factored out of get_response so the source-faithful reader and the
spec-described reader share everything but the resynchronization rule. -/
def finish_frame (resp_type l1 l2 : Nat) (rest : List Nat) : ReadOutcome :=
  let length := (l1 <<< 7) ||| l2
  if length < 3 then ReadOutcome.lengthError
  else
    let n := length - 3
    if rest.length < n then ReadOutcome.ioError
    else
      let data := rest.take n
      match MessageType.try_from_byte resp_type with
      | some rtype =>
        match Response.try_from_raw rtype data with
        | .ok r => ReadOutcome.ok r
        | .err e => ReadOutcome.parseError e
        | .panics m => ReadOutcome.panics m
      | none => ReadOutcome.unknownType resp_type

/-- get_response (main.rs), the frame reader loop, over a finite byte stream.
Each `read_exact` takes the next byte or fails (`ioError`) when the stream is
exhausted.  A byte without the high bit set restarts the scan; a length byte
WITH the high bit set executes `continue`, which restarts the loop and reads a
fresh byte — the violating byte is consumed. -/
def get_response : List Nat → ReadOutcome
  | [] => ReadOutcome.ioError
  | b :: rest =>
    if b &&& 0x80 = 0 then get_response rest
    else
      let resp_type := b &&& 0x7F
      match rest with
      | [] => ReadOutcome.ioError
      | l1 :: rest1 =>
        if l1 &&& 0x80 ≠ 0 then get_response rest1
        else
          match rest1 with
          | [] => ReadOutcome.ioError
          | l2 :: rest2 =>
            if l2 &&& 0x80 ≠ 0 then get_response rest2
            else finish_frame resp_type l1 l2 rest2

/-- Helper for the spec-described reader: a type byte has been recognised and
its low 7 bits are in hand; two length bytes follow.  A length byte with the
high bit set abandons the frame and is itself re-treated as the new type byte
(its high bit is set, so the step-1 scan accepts it at once). -/
def read_after_type (resp_type : Nat) : List Nat → ReadOutcome
  | [] => ReadOutcome.ioError
  | l1 :: rest1 =>
    if l1 &&& 0x80 ≠ 0 then read_after_type (l1 &&& 0x7F) rest1
    else
      match rest1 with
      | [] => ReadOutcome.ioError
      | l2 :: rest2 =>
        if l2 &&& 0x80 ≠ 0 then read_after_type (l2 &&& 0x7F) rest2
        else finish_frame resp_type l1 l2 rest2

/-- Modelled from the spec (section 4.1, step 2-3 resync rule): the frame
reader as the spec describes it, identical to get_response except that a
length byte whose high bit is set is NOT discarded — it is treated as a
potential new type byte on the next scan iteration. -/
def get_response_spec : List Nat → ReadOutcome
  | [] => ReadOutcome.ioError
  | b :: rest =>
    if b &&& 0x80 = 0 then get_response_spec rest
    else read_after_type (b &&& 0x7F) rest

/-- The Normal starting layout (White back rank at squares 0-7 in the order
the source compares against, pawns at 8-15, empty center, Black mirrored). -/
def normalStartList : List RawPiece :=
  [RawPiece.WhiteRook, RawPiece.WhiteKnight, RawPiece.WhiteBishop, RawPiece.WhiteKing,
   RawPiece.WhiteQueen, RawPiece.WhiteBishop, RawPiece.WhiteKnight, RawPiece.WhiteRook]
  ++ List.replicate 8 RawPiece.WhitePawn
  ++ List.replicate 32 RawPiece.Empty
  ++ List.replicate 8 RawPiece.BlackPawn
  ++ [RawPiece.BlackRook, RawPiece.BlackKnight, RawPiece.BlackBishop, RawPiece.BlackKing,
      RawPiece.BlackQueen, RawPiece.BlackBishop, RawPiece.BlackKnight, RawPiece.BlackRook]

/-- The layout the source's Mirror branch accepts: Black's back rank at 0-7
with Queen and King swapped relative to the Normal sequence. -/
def mirrorStartList : List RawPiece :=
  [RawPiece.BlackRook, RawPiece.BlackKnight, RawPiece.BlackBishop, RawPiece.BlackQueen,
   RawPiece.BlackKing, RawPiece.BlackBishop, RawPiece.BlackKnight, RawPiece.BlackRook]
  ++ List.replicate 8 RawPiece.BlackPawn
  ++ List.replicate 32 RawPiece.Empty
  ++ List.replicate 8 RawPiece.WhitePawn
  ++ [RawPiece.WhiteRook, RawPiece.WhiteKnight, RawPiece.WhiteBishop, RawPiece.WhiteQueen,
      RawPiece.WhiteKing, RawPiece.WhiteBishop, RawPiece.WhiteKnight, RawPiece.WhiteRook]

/-- A board built with the back ranks in the exact piece-type sequence the
Normal check uses (King before Queen), colours swapped between the ranks:
the layout claim C4 says the Mirror check accepts. -/
def mirrorClaimBoard : List RawPiece :=
  [RawPiece.BlackRook, RawPiece.BlackKnight, RawPiece.BlackBishop, RawPiece.BlackKing,
   RawPiece.BlackQueen, RawPiece.BlackBishop, RawPiece.BlackKnight, RawPiece.BlackRook]
  ++ List.replicate 8 RawPiece.BlackPawn
  ++ List.replicate 32 RawPiece.Empty
  ++ List.replicate 8 RawPiece.WhitePawn
  ++ [RawPiece.WhiteRook, RawPiece.WhiteKnight, RawPiece.WhiteBishop, RawPiece.WhiteKing,
      RawPiece.WhiteQueen, RawPiece.WhiteBishop, RawPiece.WhiteKnight, RawPiece.WhiteRook]

/-- Claim C8: for every byte 0x00-0x0C, RawPiece::try_from_byte succeeds with
the identity whose wire code is that byte; for 0x0D-0xFF it returns none; and
to_char is injective over the 13 identities. -/
theorem c8_piece_codec_totality :
    (∀ b, b < 256 →
      (b ≤ 0x0c → (RawPiece.try_from_byte b).map RawPiece.code = some b) ∧
      (0x0d ≤ b → RawPiece.try_from_byte b = none)) ∧
    (∀ p q : RawPiece, p.to_char = q.to_char → p = q) := by
  constructor
  · decide
  · decide

/-- Witness for C8 at bytes 5 and 13 and at a pair of identities. -/
theorem c8_piece_codec_totality_witness :
    (RawPiece.try_from_byte 5).map RawPiece.code = some 5 ∧
    RawPiece.try_from_byte 13 = none := by
  exact ⟨(c8_piece_codec_totality.1 5 (by decide)).1 (by decide),
         (c8_piece_codec_totality.1 13 (by decide)).2 (by decide)⟩

/-- Claim C9: encoding any Command with as_byte and decoding the wire byte
with try_from_byte returns the original command, and any byte that encodes no
command decodes to none. -/
theorem c9_command_roundtrip :
    (∀ c : Command, Command.try_from_byte ((Command.as_byte c).getD 0 0) = some c) ∧
    (∀ b, b < 256 → (∀ c : Command, (Command.as_byte c).getD 0 0 ≠ b) →
      Command.try_from_byte b = none) := by
  constructor
  · decide
  · decide

/-- Witness for C9 at Reset and at the unassigned byte 0x00. -/
theorem c9_command_roundtrip_witness :
    Command.try_from_byte ((Command.as_byte Command.Reset).getD 0 0) = some Command.Reset ∧
    Command.try_from_byte 0 = none :=
  ⟨c9_command_roundtrip.1 Command.Reset, c9_command_roundtrip.2 0 (by decide) (by decide)⟩

/-- Claim C6: every fixed-length message type rejects a payload of any other
length with InvalidLength carrying the message type, the expected length and
the actual length; in particular a Version payload of length 1 yields
InvalidLength with expected 2 and actual 1. -/
theorem c6_invalid_length (data : List Nat) :
    (data.length ≠ 64 →
      Response.try_from_raw .BoardDump data
        = .err (.InvalidLength .BoardDump 64 data.length)) ∧
    (data.length ≠ 7 →
      Response.try_from_raw .BWTime data
        = .err (.InvalidLength .BWTime 7 data.length)) ∧
    (data.length ≠ 2 →
      Response.try_from_raw .FieldUpdate data
        = .err (.InvalidLength .FieldUpdate 2 data.length)) ∧
    (data.length ≠ 2 →
      Response.try_from_raw .Version data
        = .err (.InvalidLength .Version 2 data.length)) ∧
    Response.try_from_raw .Version [0] = .err (.InvalidLength .Version 2 1) := by
  refine ⟨?_, ?_, ?_, ?_, by decide⟩ <;> intro h <;>
    simp [Response.try_from_raw, ParseError.invalid_length, h]

/-- Witness for C6 on the empty payload. -/
theorem c6_invalid_length_witness :
    Response.try_from_raw .BoardDump ([] : List Nat)
      = .err (.InvalidLength .BoardDump 64 ([] : List Nat).length) :=
  (c6_invalid_length []).1 (by decide)

/-- Counterexample to claim C1 as stated: on the EEMoves message type the
decoder does not return a Response or a ParseError — it diverges (the Rust
arm executes the todo! macro, which panics). -/
theorem c1_counterexample : (Response.try_from_raw .EEMoves []).diverges = true := by
  decide

/-- Claim C1 (amended): decoding diverges exactly on the EEMoves message
type; every other recognized message type returns a Response or a ParseError
for every payload. -/
theorem c1_amended_diverges_iff_eemoves (mt : MessageType) (data : List Nat) :
    (Response.try_from_raw mt data).diverges = true ↔ mt = MessageType.EEMoves := by
  cases mt <;> simp only [Response.try_from_raw] <;>
    (repeat' split) <;> simp [DecodeResult.diverges]

/-- Claim C2, evaluated at the failing input: an out-of-range square index
(64) makes apply_move diverge (Rust index-out-of-bounds panic, modelled as
none), instead of being rejected or ignored; an in-range index replaces
exactly that one entry. -/
theorem c2_out_of_range_update_diverges :
    GameBoard.apply_move (GameBoard.new ⟨normalStartList⟩) ⟨64, RawPiece.Empty⟩ = none ∧
    GameBoard.apply_move (GameBoard.new ⟨normalStartList⟩) ⟨8, RawPiece.Empty⟩
      = some ⟨⟨normalStartList.set 8 RawPiece.Empty⟩, StartPosition.Normal⟩ := by
  decide

/-- Counterexample to claim C3 as stated: the source reader and the
spec-described reader disagree on a concrete stream.  After the type byte
0x86, the length byte 0x8E has its high bit set; the source's continue
discards it and scans on, exhausting the stream (ioError), while re-treating
0x8E as a type byte (as the claim states) recovers a FieldUpdate frame. -/
theorem c3_counterexample :
    get_response [0x86, 0x8E, 0x00, 0x05, 0x03, 0x01]
        ≠ get_response_spec [0x86, 0x8E, 0x00, 0x05, 0x03, 0x01] ∧
    get_response [0x86, 0x8E, 0x00, 0x05, 0x03, 0x01] = ReadOutcome.ioError ∧
    get_response_spec [0x86, 0x8E, 0x00, 0x05, 0x03, 0x01]
        = ReadOutcome.ok (.FieldUpdate ⟨3, RawPiece.WhitePawn⟩) := by
  decide

/-- Claim C3 (amended): when a length byte (step 2 or step 3) has its high
bit set, the reader abandons the frame attempt and resumes scanning — but the
violating byte is consumed and discarded; scanning resumes with the next byte
of the stream, not with the violating byte. -/
theorem c3_amended_resync_discards_byte (t l1 v : Nat) (rest : List Nat)
    (ht : t &&& 0x80 ≠ 0) (hv : v &&& 0x80 ≠ 0) (h1 : l1 &&& 0x80 = 0) :
    get_response (t :: v :: rest) = get_response rest ∧
    get_response (t :: l1 :: v :: rest) = get_response rest := by
  constructor
  · simp [get_response, ht, hv]
  · simp [get_response, ht, h1, hv]

/-- Witness for C3 (amended) on concrete bytes 0x86, 0x00, 0x8E. -/
theorem c3_amended_resync_discards_byte_witness :
    get_response [0x86, 0x8E] = get_response [] ∧
    get_response [0x86, 0x00, 0x8E] = get_response [] :=
  c3_amended_resync_discards_byte 0x86 0x00 0x8E [] (by decide) (by decide) (by decide)

/-- Arithmetic facts about one BCD-decoded byte: the u8 sum never wraps, is
at most 165, and is at most 99 when both nibbles are decimal digits. -/
theorem bcd_byte_facts (x : Nat) (hx : x < 256) :
    (10 * (x >>> 4) + (x &&& 0x0f)) % 256 = 10 * (x >>> 4) + (x &&& 0x0f) ∧
    (10 * (x >>> 4) + (x &&& 0x0f)) % 256 ≤ 165 ∧
    (x >>> 4 ≤ 9 → x &&& 0x0f ≤ 9 → (10 * (x >>> 4) + (x &&& 0x0f)) % 256 ≤ 99) := by
  have h1 : x >>> 4 = x / 16 := by
    rw [Nat.shiftRight_eq_div_pow]
  have h2 : x &&& 0x0f = x % 16 := by
    have h := Nat.and_pow_two_sub_one_eq_mod x 4
    norm_num at h
    exact h
  have hlt : 10 * (x >>> 4) + (x &&& 0x0f) < 256 := by
    rw [h1, h2]; omega
  have hmod : (10 * (x >>> 4) + (x &&& 0x0f)) % 256 = 10 * (x >>> 4) + (x &&& 0x0f) :=
    Nat.mod_eq_of_lt hlt
  refine ⟨hmod, ?_, ?_⟩
  · rw [hmod, h1, h2]; omega
  · intro ha hb
    rw [hmod]
    rw [h1] at ha ⊢
    rw [h2] at hb ⊢
    omega

/-- ClockStatus::from_byte tests bit 0 and bit 3 of the status byte. -/
theorem from_byte_eq_testBit (x : Nat) :
    ClockStatus.from_byte x
      = (if x.testBit 0 then ClockStatus.NoCock
         else if x.testBit 3 then ClockStatus.BlacksTurn
         else ClockStatus.WhitesTurn) := by
  have h0 : (x &&& 0x01 ≠ 0) ↔ x.testBit 0 = true := by
    rw [Nat.and_one_is_mod]
    simp only [Nat.testBit_to_div_mod, Nat.pow_zero, Nat.div_one, decide_eq_true_eq]
    omega
  have h3 : (x &&& 0x08 ≠ 0) ↔ x.testBit 3 = true := by
    have h := Nat.and_two_pow x 3
    norm_num at h
    rw [h]
    cases x.testBit 3 <;> simp
  unfold ClockStatus.from_byte
  split_ifs <;> simp_all

/-- Counterexample to claim C5 as stated: payload byte 0xAA (not valid BCD)
decodes to 110, which exceeds 99. -/
theorem c5_counterexample :
    Response.try_from_raw .BWTime [0xaa, 0, 0, 0, 0, 0, 0]
      = .ok (.BWTime ⟨110, 0, 0⟩ ⟨0, 0, 0⟩ ClockStatus.WhitesTurn) ∧
    99 < 110 := by
  decide

/-- Claim C5 (amended): for every 7-byte clock payload the decode succeeds
and each per-side hours/minutes/seconds value lies in 0-165; it lies in 0-99
whenever both nibbles of every payload byte are decimal digits (valid BCD). -/
theorem c5_amended_clock_bounds (data : List Nat) (h7 : data.length = 7)
    (hb : ∀ x ∈ data, x < 256) :
    ∃ w b s, Response.try_from_raw .BWTime data = .ok (.BWTime w b s) ∧
      w.hours ≤ 165 ∧ w.minutes ≤ 165 ∧ w.seconds ≤ 165 ∧
      b.hours ≤ 165 ∧ b.minutes ≤ 165 ∧ b.seconds ≤ 165 ∧
      ((∀ x ∈ data, x >>> 4 ≤ 9 ∧ x &&& 0x0f ≤ 9) →
        w.hours ≤ 99 ∧ w.minutes ≤ 99 ∧ w.seconds ≤ 99 ∧
        b.hours ≤ 99 ∧ b.minutes ≤ 99 ∧ b.seconds ≤ 99) := by
  match data, h7 with
  | [d0, d1, d2, d3, d4, d5, d6], _ =>
    refine ⟨Remaining.from_bcd [d0, d1, d2], Remaining.from_bcd [d3, d4, d5],
            ClockStatus.from_byte d6, rfl, ?_⟩
    simp only [Remaining.from_bcd, List.getD_cons_zero, List.getD_cons_succ]
    simp only [List.mem_cons, List.not_mem_nil, or_false, forall_eq_or_imp, forall_eq] at hb
    obtain ⟨hb0, hb1, hb2, hb3, hb4, hb5, hb6⟩ := hb
    refine ⟨(bcd_byte_facts d0 hb0).2.1, (bcd_byte_facts d1 hb1).2.1,
            (bcd_byte_facts d2 hb2).2.1, (bcd_byte_facts d3 hb3).2.1,
            (bcd_byte_facts d4 hb4).2.1, (bcd_byte_facts d5 hb5).2.1, ?_⟩
    intro hd
    simp only [List.mem_cons, List.not_mem_nil, or_false, forall_eq_or_imp, forall_eq] at hd
    obtain ⟨h0, h1, h2, h3, h4, h5, h6⟩ := hd
    exact ⟨(bcd_byte_facts d0 hb0).2.2 h0.1 h0.2, (bcd_byte_facts d1 hb1).2.2 h1.1 h1.2,
           (bcd_byte_facts d2 hb2).2.2 h2.1 h2.2, (bcd_byte_facts d3 hb3).2.2 h3.1 h3.2,
           (bcd_byte_facts d4 hb4).2.2 h4.1 h4.2, (bcd_byte_facts d5 hb5).2.2 h5.1 h5.2⟩

/-- Witness for C5 (amended) on the payload 59:30:01 / 12:34:56, black to
move. -/
theorem c5_amended_clock_bounds_witness :
    ∃ w b s,
      Response.try_from_raw .BWTime [0x59, 0x30, 0x01, 0x12, 0x34, 0x56, 0x08]
          = .ok (.BWTime w b s) ∧
      w.hours ≤ 165 ∧ w.minutes ≤ 165 ∧ w.seconds ≤ 165 ∧
      b.hours ≤ 165 ∧ b.minutes ≤ 165 ∧ b.seconds ≤ 165 ∧
      ((∀ x ∈ [0x59, 0x30, 0x01, 0x12, 0x34, 0x56, 0x08], x >>> 4 ≤ 9 ∧ x &&& 0x0f ≤ 9) →
        w.hours ≤ 99 ∧ w.minutes ≤ 99 ∧ w.seconds ≤ 99 ∧
        b.hours ≤ 99 ∧ b.minutes ≤ 99 ∧ b.seconds ≤ 99) :=
  c5_amended_clock_bounds [0x59, 0x30, 0x01, 0x12, 0x34, 0x56, 0x08]
    (by decide) (by decide)

/-- Claim C7: a 7-byte clock payload decodes successfully; hours, minutes and
seconds of each side are 10*(byte to the power shift 4) + (byte AND 0x0F) of
payload bytes 0-2 (white) and 3-5 (black) with no wrap-around, and the turn
status is NoClock when bit 0 of byte 6 is set, else BlackToMove when bit 3 is
set, else WhiteToMove. -/
theorem c7_clock_decode (data : List Nat) (h7 : data.length = 7)
    (hb : ∀ x ∈ data, x < 256) :
    Response.try_from_raw .BWTime data
      = .ok (.BWTime
          ⟨10 * (data.getD 0 0 >>> 4) + (data.getD 0 0 &&& 0x0f),
           10 * (data.getD 1 0 >>> 4) + (data.getD 1 0 &&& 0x0f),
           10 * (data.getD 2 0 >>> 4) + (data.getD 2 0 &&& 0x0f)⟩
          ⟨10 * (data.getD 3 0 >>> 4) + (data.getD 3 0 &&& 0x0f),
           10 * (data.getD 4 0 >>> 4) + (data.getD 4 0 &&& 0x0f),
           10 * (data.getD 5 0 >>> 4) + (data.getD 5 0 &&& 0x0f)⟩
          (if (data.getD 6 0).testBit 0 then ClockStatus.NoCock
           else if (data.getD 6 0).testBit 3 then ClockStatus.BlacksTurn
           else ClockStatus.WhitesTurn)) := by
  match data, h7 with
  | [d0, d1, d2, d3, d4, d5, d6], _ =>
    simp only [List.mem_cons, List.not_mem_nil, or_false, forall_eq_or_imp, forall_eq] at hb
    obtain ⟨hb0, hb1, hb2, hb3, hb4, hb5, hb6⟩ := hb
    have hmain : Response.try_from_raw .BWTime [d0, d1, d2, d3, d4, d5, d6]
        = .ok (.BWTime (Remaining.from_bcd [d0, d1, d2]) (Remaining.from_bcd [d3, d4, d5])
            (ClockStatus.from_byte d6)) := rfl
    rw [hmain, from_byte_eq_testBit]
    simp only [Remaining.from_bcd, List.getD_cons_zero, List.getD_cons_succ]
    rw [(bcd_byte_facts d0 hb0).1, (bcd_byte_facts d1 hb1).1, (bcd_byte_facts d2 hb2).1,
        (bcd_byte_facts d3 hb3).1, (bcd_byte_facts d4 hb4).1, (bcd_byte_facts d5 hb5).1]

/-- Witness for C7 on the payload 59:30:01 / 12:34:56, black to move. -/
theorem c7_clock_decode_witness :
    Response.try_from_raw .BWTime [0x59, 0x30, 0x01, 0x12, 0x34, 0x56, 0x08]
      = .ok (.BWTime ⟨59, 30, 1⟩ ⟨12, 34, 56⟩ ClockStatus.BlacksTurn) :=
  (c7_clock_decode [0x59, 0x30, 0x01, 0x12, 0x34, 0x56, 0x08]
    (by decide) (by decide)).trans (by decide)

/-- Counterexample to claim C4 as stated: mirrorClaimBoard satisfies every
condition the claim names for Mirror — 8-15 all BlackPawn, 48-55 all
WhitePawn, 0-7 the Black pieces in the SAME piece-type sequence the Normal
check uses (Rook, Knight, Bishop, King, Queen, Bishop, Knight, Rook), 56-63
that sequence in White, middle ranks empty — yet classify() does not return
Mirror: the source's Mirror branch expects Queen before King. -/
theorem c4_counterexample :
    GameBoard.is_starting_position ⟨⟨mirrorClaimBoard⟩, StartPosition.None⟩
        ≠ StartPosition.Mirror ∧
    (mirrorClaimBoard.drop 16).take 32 = List.replicate 32 RawPiece.Empty ∧
    (mirrorClaimBoard.drop 8).take 8 = List.replicate 8 RawPiece.BlackPawn ∧
    (mirrorClaimBoard.drop 48).take 8 = List.replicate 8 RawPiece.WhitePawn ∧
    mirrorClaimBoard.take 8
      = [RawPiece.BlackRook, RawPiece.BlackKnight, RawPiece.BlackBishop,
         RawPiece.BlackKing, RawPiece.BlackQueen, RawPiece.BlackBishop,
         RawPiece.BlackKnight, RawPiece.BlackRook] ∧
    (mirrorClaimBoard.drop 56).take 8
      = [RawPiece.WhiteRook, RawPiece.WhiteKnight, RawPiece.WhiteBishop,
         RawPiece.WhiteKing, RawPiece.WhiteQueen, RawPiece.WhiteBishop,
         RawPiece.WhiteKnight, RawPiece.WhiteRook] := by
  decide

/-- Claim C4 (amended): classify() returns Mirror exactly when the middle
four ranks are empty, squares 8-15 are all BlackPawn, squares 48-55 are all
WhitePawn, squares 0-7 equal the Black back rank with Queen and King SWAPPED
relative to the Normal sequence (Rook, Knight, Bishop, Queen, King, Bishop,
Knight, Rook), and squares 56-63 equal that same swapped sequence in White
pieces. -/
theorem c4_amended_mirror_iff (b : List RawPiece) (s : StartPosition) (h : b.length = 64) :
    GameBoard.is_starting_position ⟨⟨b⟩, s⟩ = StartPosition.Mirror ↔
      ((b.drop 16).take 32 = List.replicate 32 RawPiece.Empty ∧
       (b.drop 8).take 8 = List.replicate 8 RawPiece.BlackPawn ∧
       (b.drop 48).take 8 = List.replicate 8 RawPiece.WhitePawn ∧
       b.take 8 = [RawPiece.BlackRook, RawPiece.BlackKnight, RawPiece.BlackBishop,
                   RawPiece.BlackQueen, RawPiece.BlackKing, RawPiece.BlackBishop,
                   RawPiece.BlackKnight, RawPiece.BlackRook] ∧
       (b.drop 56).take 8 = [RawPiece.WhiteRook, RawPiece.WhiteKnight, RawPiece.WhiteBishop,
                             RawPiece.WhiteQueen, RawPiece.WhiteKing, RawPiece.WhiteBishop,
                             RawPiece.WhiteKnight, RawPiece.WhiteRook]) := by
  have hmidlen : ((b.drop 16).take 32).length = 32 := by simp [h]
  have hmid : (((b.drop 16).take 32).any (fun p => p != RawPiece.Empty) = false) ↔
      (b.drop 16).take 32 = List.replicate 32 RawPiece.Empty := by
    rw [List.eq_replicate_iff]
    simp [List.any_eq_false, hmidlen]
  have hp8len : ((b.drop 8).take 8).length = 8 := by simp [h]
  have hp48len : ((b.drop 48).take 8).length = 8 := by simp [h]
  have hallB : (((b.drop 8).take 8).all (fun p => p == RawPiece.BlackPawn) = true) ↔
      (b.drop 8).take 8 = List.replicate 8 RawPiece.BlackPawn := by
    rw [List.eq_replicate_iff]
    simp [List.all_eq_true, hp8len]
  have hallWp : (((b.drop 48).take 8).all (fun p => p == RawPiece.WhitePawn) = true) ↔
      (b.drop 48).take 8 = List.replicate 8 RawPiece.WhitePawn := by
    rw [List.eq_replicate_iff]
    simp [List.all_eq_true, hp48len]
  have hallW8 : (((b.drop 8).take 8).all (fun p => p == RawPiece.WhitePawn) = true) ↔
      (b.drop 8).take 8 = List.replicate 8 RawPiece.WhitePawn := by
    rw [List.eq_replicate_iff]
    simp [List.all_eq_true, hp8len]
  simp only [GameBoard.is_starting_position]
  by_cases hA : ((b.drop 16).take 32).any (fun p => p != RawPiece.Empty) = true
  · rw [if_pos hA]
    constructor
    · intro hc
      exact absurd hc (by decide)
    · rintro ⟨h1, -⟩
      rw [← hmid] at h1
      rw [hA] at h1
      exact absurd h1 (by decide)
  · have hA' : ((b.drop 16).take 32).any (fun p => p != RawPiece.Empty) = false :=
      Bool.eq_false_iff.mpr hA
    rw [if_neg hA]
    by_cases hN : (((b.drop 8).take 8).all (fun p => p == RawPiece.WhitePawn)
        && ((b.drop 48).take 8).all (fun p => p == RawPiece.BlackPawn)
        && (b.take 8
            == [RawPiece.WhiteRook, RawPiece.WhiteKnight, RawPiece.WhiteBishop,
                RawPiece.WhiteKing, RawPiece.WhiteQueen, RawPiece.WhiteBishop,
                RawPiece.WhiteKnight, RawPiece.WhiteRook])
        && ((b.drop 56).take 8
            == [RawPiece.BlackRook, RawPiece.BlackKnight, RawPiece.BlackBishop,
                RawPiece.BlackKing, RawPiece.BlackQueen, RawPiece.BlackBishop,
                RawPiece.BlackKnight, RawPiece.BlackRook])) = true
    · rw [if_pos hN]
      have hW8 : (b.drop 8).take 8 = List.replicate 8 RawPiece.WhitePawn := by
        rw [← hallW8]
        simp only [Bool.and_eq_true] at hN
        exact hN.1.1.1
      constructor
      · intro hc
        exact absurd hc (by decide)
      · rintro ⟨-, h2, -⟩
        rw [hW8] at h2
        have hbw := List.eq_replicate_iff.mp h2.symm
        exact absurd (hbw.2 RawPiece.BlackPawn (by simp [List.mem_replicate])) (by decide)
    · rw [if_neg hN]
      by_cases hM : (((b.drop 8).take 8).all (fun p => p == RawPiece.BlackPawn)
          && ((b.drop 48).take 8).all (fun p => p == RawPiece.WhitePawn)
          && (b.take 8
              == [RawPiece.BlackRook, RawPiece.BlackKnight, RawPiece.BlackBishop,
                  RawPiece.BlackQueen, RawPiece.BlackKing, RawPiece.BlackBishop,
                  RawPiece.BlackKnight, RawPiece.BlackRook])
          && ((b.drop 56).take 8
              == [RawPiece.WhiteRook, RawPiece.WhiteKnight, RawPiece.WhiteBishop,
                  RawPiece.WhiteQueen, RawPiece.WhiteKing, RawPiece.WhiteBishop,
                  RawPiece.WhiteKnight, RawPiece.WhiteRook])) = true
      · rw [if_pos hM]
        simp only [Bool.and_eq_true, beq_iff_eq] at hM
        obtain ⟨⟨⟨m1, m2⟩, m3⟩, m4⟩ := hM
        constructor
        · intro _
          exact ⟨hmid.mp hA', hallB.mp m1, hallWp.mp m2, m3, m4⟩
        · intro _
          rfl
      · rw [if_neg hM]
        constructor
        · intro hc
          exact absurd hc (by decide)
        · rintro ⟨-, h2, h3, h4, h5⟩
          exact absurd (by
            simp only [Bool.and_eq_true, beq_iff_eq]
            exact ⟨⟨⟨hallB.mpr h2, hallWp.mpr h3⟩, h4⟩, h5⟩) hM

/-- Witness for C4 (amended): the Queen-King-swapped mirrored layout is
classified as Mirror. -/
theorem c4_amended_mirror_iff_witness :
    GameBoard.is_starting_position ⟨⟨mirrorStartList⟩, StartPosition.None⟩
      = StartPosition.Mirror :=
  (c4_amended_mirror_iff mirrorStartList StartPosition.None (by decide)).mpr (by decide)

/-- Claim C10: a board with any non-Empty square among squares 16-47 is
classified None; and starting from the Normal layout, applying
SquareUpdate(8, Empty) then SquareUpdate(16, WhitePawn) makes the
classification None. -/
theorem c10_occupied_center_is_none :
    (∀ (b : List RawPiece) (s : StartPosition), b.length = 64 →
      (∃ i, 16 ≤ i ∧ i < 48 ∧ b.getD i RawPiece.Empty ≠ RawPiece.Empty) →
      GameBoard.is_starting_position ⟨⟨b⟩, s⟩ = StartPosition.None) ∧
    ((GameBoard.apply_move (GameBoard.new ⟨normalStartList⟩) ⟨8, RawPiece.Empty⟩).bind
        (fun g => GameBoard.apply_move g ⟨16, RawPiece.WhitePawn⟩)).map
      GameBoard.is_starting_position = some StartPosition.None := by
  constructor
  · rintro b s hlen ⟨i, h16, h48, hne⟩
    have hi : i < b.length := by omega
    have hgd : b.getD i RawPiece.Empty = b[i] := by
      simp [List.getD_eq_getElem?_getD, List.getElem?_eq_getElem hi]
    rw [hgd] at hne
    have hslice : i - 16 < ((b.drop 16).take 32).length := by
      simp [hlen]
      omega
    have h16i : 16 + (i - 16) = i := by omega
    have heq : ((b.drop 16).take 32)[i - 16] = b[i] := by
      simp [List.getElem_take, List.getElem_drop, h16i]
    have hmem : b[i] ∈ (b.drop 16).take 32 := by
      rw [← heq]
      exact List.getElem_mem hslice
    have hany : ((b.drop 16).take 32).any (fun p => p != RawPiece.Empty) = true := by
      rw [List.any_eq_true]
      exact ⟨b[i], hmem, by simpa using hne⟩
    simp [GameBoard.is_starting_position, hany]
  · decide

/-- Witness for C10 on the Normal layout with a WhitePawn written to
square 16. -/
theorem c10_occupied_center_is_none_witness :
    GameBoard.is_starting_position
        ⟨⟨normalStartList.set 16 RawPiece.WhitePawn⟩, StartPosition.None⟩
      = StartPosition.None :=
  c10_occupied_center_is_none.1 (normalStartList.set 16 RawPiece.WhitePawn)
    StartPosition.None (by decide) ⟨16, by decide, by decide, by decide⟩

end Jackolope
